import Mathlib

/-!
# Verification of the go-turbo-cachesrv artifact cache server

Shallow embedding of `src/main.go`: a content-addressable artifact cache
server.  The filesystem is modelled as an association list from absolute
path strings to entries (regular files holding a byte list, or
directories).  I/O failures that the Go code can observe (`os.Create`,
`os.Open`, `os.Stat` errors, and a read error in the middle of `io.Copy`)
are modelled by an explicit oracle so that the error-handling paths of the
code are reachable in the model.

HTTP handlers are embedded as functions from a request and a filesystem
state to a trace of response-writer events (header sets, an explicit
`WriteHeader`, body writes), a list of log entries, and the new filesystem
state.  This mirrors how the Go handlers drive `http.ResponseWriter` and
`log.Logger`.
-/

/-- Payload bytes, one `Nat` per byte. -/
abbrev Bytes := List Nat

/-- Bytes of a string, as logged/written by the Go code (`[]byte(s)`). -/
def strBytes (s : String) : Bytes := s.data.map Char.toNat

/-- A filesystem entry: a regular file with its content, or a directory. -/
inductive FsEntry where
  | file (content : Bytes)
  | dir
  deriving DecidableEq, Repr

/-- The filesystem: an association list from path to entry. -/
abbrev FS := List (String × FsEntry)

/-- Look up the entry stored at a path (first match). -/
def FS.find : FS → String → Option FsEntry
  | [], _ => none
  | (k, v) :: rest, p => if k = p then some v else FS.find rest p

/-- Create or overwrite the entry at a path (`os.Create` / `MkdirAll`). -/
def FS.set : FS → String → FsEntry → FS
  | [], p, e => [(p, e)]
  | (k, v) :: rest, p, e => if k = p then (p, e) :: rest else (k, v) :: FS.set rest p e

/-- Remove the entry at a path (`os.Remove`). -/
def FS.erase : FS → String → FS
  | [], _ => []
  | (k, v) :: rest, p => if k = p then FS.erase rest p else (k, v) :: FS.erase rest p

theorem FS.find_set_self (fs : FS) (p : String) (e : FsEntry) :
    FS.find (FS.set fs p e) p = some e := by
  induction fs with
  | nil => simp [FS.set, FS.find]
  | cons kv rest ih =>
    obtain ⟨k, v⟩ := kv
    by_cases hk : k = p <;> simp [FS.set, FS.find, hk, ih]

theorem FS.find_set_ne (fs : FS) (p q : String) (e : FsEntry) (h : p ≠ q) :
    FS.find (FS.set fs p e) q = FS.find fs q := by
  induction fs with
  | nil => simp [FS.set, FS.find, h]
  | cons kv rest ih =>
    obtain ⟨k, v⟩ := kv
    by_cases hk : k = p
    · subst hk
      simp [FS.set, FS.find, h]
    · simp [FS.set, FS.find, hk, ih]

theorem FS.find_erase_self (fs : FS) (p : String) :
    FS.find (FS.erase fs p) p = none := by
  induction fs with
  | nil => simp [FS.erase, FS.find]
  | cons kv rest ih =>
    obtain ⟨k, v⟩ := kv
    by_cases hk : k = p <;> simp [FS.erase, FS.find, hk, ih]

theorem FS.find_erase_ne (fs : FS) (p q : String) (h : p ≠ q) :
    FS.find (FS.erase fs p) q = FS.find fs q := by
  induction fs with
  | nil => simp [FS.erase, FS.find]
  | cons kv rest ih =>
    obtain ⟨k, v⟩ := kv
    by_cases hk : k = p
    · subst hk
      simp [FS.erase, FS.find, h, ih]
    · simp [FS.erase, FS.find, hk, ih]

/-- Go `strings.HasPrefix s pre`. -/
def strStartsWith (s pre : String) : Bool := pre.data.isPrefixOf s.data

/-- Go `strings.TrimPrefix s pre`: drops `pre` from the front when present. -/
def strTrimLeading (s pre : String) : String :=
  if strStartsWith s pre then ⟨s.data.drop pre.data.length⟩ else s

theorem strStartsWith_append (pre rest : String) :
    strStartsWith (pre ++ rest) pre = true := by
  simp [strStartsWith, List.isPrefixOf_iff_prefix]

theorem strTrimLeading_append (pre rest : String) :
    strTrimLeading (pre ++ rest) pre = rest := by
  simp [strTrimLeading, strStartsWith_append]

theorem strStartsWith_iff (s pre : String) :
    strStartsWith s pre = true ↔ ∃ rest : String, s = pre ++ rest := by
  constructor
  · intro h
    simp [strStartsWith, List.isPrefixOf_iff_prefix] at h
    obtain ⟨t, ht⟩ := h
    exact ⟨⟨t⟩, String.ext (by simpa using ht.symm)⟩
  · rintro ⟨rest, rfl⟩
    exact strStartsWith_append pre rest

theorem String.append_left_cancel_iff (a b c : String) :
    a ++ b = a ++ c ↔ b = c := by
  constructor
  · intro h
    apply String.ext
    have hd : a.data ++ b.data = a.data ++ c.data := by
      have := congrArg String.data h
      simpa using this
    exact List.append_cancel_left hd
  · rintro rfl; rfl

/-- `filepath.Join basePath hash` for hashes that contain no separator and
no dot components: the empty hash yields the base path itself (Go's
`filepath.Join(base, "")` cleans to `base`). -/
def joinPath (base h : String) : String :=
  if h = "" then base else base ++ "/" ++ h

/-- A hash that is a safe single-component file name: nonempty and free of
the path separator.  All well-formed turborepo hashes satisfy this. -/
def hashOk (h : String) : Prop := h ≠ "" ∧ '/' ∉ h.data

instance (h : String) : Decidable (hashOk h) := by
  unfold hashOk; infer_instance

theorem joinPath_data (base h : String) (hne : h ≠ "") :
    (joinPath base h).data = base.data ++ '/' :: h.data := by
  simp [joinPath, hne]

theorem joinPath_inj (base h h' : String) (hok : hashOk h) (hok' : hashOk h')
    (hne : h ≠ h') : joinPath base h ≠ joinPath base h' := by
  intro heq
  apply hne
  have := congrArg String.data heq
  rw [joinPath_data base h hok.1, joinPath_data base h' hok'.1] at this
  have := List.append_cancel_left this
  exact String.ext (by simpa using this)

theorem joinPath_ne_base (base h : String) (hok : hashOk h) :
    joinPath base h ≠ base := by
  intro heq
  have hlen := congrArg (fun s => s.data.length) heq
  simp only [joinPath_data base h hok.1, List.length_append, List.length_cons] at hlen
  omega

/-! ## The storage layer (`FileSystemStorage`) -/

/-- An input stream as seen by `io.Copy`: the bytes it yields before it
either ends normally (`fails = false`) or returns a read error after
yielding them (`fails = true`). -/
structure ByteStream where
  bytes : Bytes
  fails : Bool
  deriving DecidableEq, Repr

/-- I/O failure oracle: which of the fallible OS calls fail, keyed by the
full path they are applied to.  `createFails` covers the single
`os.Create` of a request. -/
structure IOOracle where
  createFails : Bool
  openFails : String → Bool
  statFails : String → Bool

/-- The all-succeeding oracle: a healthy filesystem. -/
def IOOracle.ok : IOOracle :=
  { createFails := false, openFails := fun _ => false, statFails := fun _ => false }

instance {ε α : Type} [DecidableEq ε] [DecidableEq α] :
    DecidableEq (Except ε α) := fun a b =>
  match a, b with
  | Except.error e, Except.error e' =>
      if h : e = e' then Decidable.isTrue (by rw [h])
      else Decidable.isFalse (by intro hc; cases hc; exact h rfl)
  | Except.ok x, Except.ok y =>
      if h : x = y then Decidable.isTrue (by rw [h])
      else Decidable.isFalse (by intro hc; cases hc; exact h rfl)
  | Except.error _, Except.ok _ => Decidable.isFalse (by intro hc; cases hc)
  | Except.ok _, Except.error _ => Decidable.isFalse (by intro hc; cases hc)

inductive StoreErr where
  | createFailed
  | copyFailed
  deriving DecidableEq, Repr

inductive GetErr where
  | notFound
  | openFailed
  | statFailed
  deriving DecidableEq, Repr

/-- `FileSystemStorage` from `src/main.go`: storage rooted at `basePath`. -/
structure FileSystemStorage where
  basePath : String
  deriving DecidableEq, Repr

/-- `NewFileSystemStorage`: `os.MkdirAll(basePath, 0755)`, then return the
storage handle.  `MkdirAll` is a no-op on an existing directory and fails
when the path exists as a regular file; parent components are elided
(single-level model). -/
def NewFileSystemStorage (fs : FS) (basePath : String) :
    Option (FileSystemStorage × FS) :=
  match FS.find fs basePath with
  | some (FsEntry.file _) => none
  | some FsEntry.dir => some (⟨basePath⟩, fs)
  | none => some (⟨basePath⟩, FS.set fs basePath FsEntry.dir)

/-- `FileSystemStorage.Store`: `os.Create` the target path, `io.Copy` the
stream into it, and on a copy error `os.Remove` the path before returning
the error.  `os.Create` fails when the oracle says so or when the path is
an existing directory. -/
def FileSystemStorage.Store (st : FileSystemStorage) (o : IOOracle) (fs : FS)
    (hash : String) (data : ByteStream) : FS × Option StoreErr :=
  let path := joinPath st.basePath hash
  if o.createFails then (fs, some StoreErr.createFailed)
  else
    match FS.find fs path with
    | some FsEntry.dir => (fs, some StoreErr.createFailed)
    | _ =>
      if data.fails then
        (FS.erase (FS.set fs path (FsEntry.file data.bytes)) path,
         some StoreErr.copyFailed)
      else
        (FS.set fs path (FsEntry.file data.bytes), none)

/-- `FileSystemStorage.Get`: `os.Open` the path (a missing file is the
`artifact not found` error, any other open error is `failed to open
file`), then `Stat` it for the size; returns the content and the exact
stored size.  Opening a directory succeeds in Go; its stat size is
filesystem-dependent and modelled as 0 (no claim exercises it). -/
def FileSystemStorage.Get (st : FileSystemStorage) (o : IOOracle) (fs : FS)
    (hash : String) : Except GetErr (Bytes × Nat) :=
  let path := joinPath st.basePath hash
  if o.openFails path then Except.error GetErr.openFailed
  else
    match FS.find fs path with
    | none => Except.error GetErr.notFound
    | some e =>
      if o.statFails path then Except.error GetErr.statFailed
      else
        match e with
        | FsEntry.file c => Except.ok (c, c.length)
        | FsEntry.dir => Except.ok ([], 0)

/-- `FileSystemStorage.Exists`: `os.Stat` the path; `nil` error means the
artifact exists, `IsNotExist` means it does not, and any other stat error
is propagated. -/
def FileSystemStorage.Exists (st : FileSystemStorage) (o : IOOracle) (fs : FS)
    (hash : String) : Except Unit Bool :=
  let path := joinPath st.basePath hash
  if o.statFails path then Except.error ()
  else
    match FS.find fs path with
    | some _ => Except.ok true
    | none => Except.ok false

/-! ## The HTTP layer -/

/-- One cache telemetry record (`ArtifactEvent`).  `duration` is a
`float64` in the source; it is only interpolated into a log line, so it is
modelled as a `Nat`. -/
structure ArtifactEvent where
  sessionId : String
  source : String
  event : String
  hash : String
  duration : Nat
  deriving DecidableEq, Repr

/-- One entry of the bulk-query response (`ArtifactInfo`): either a size,
or an error object with a message. -/
inductive ArtifactInfo where
  | size (n : Nat)
  | err (message : String)
  deriving DecidableEq, Repr

/-- A request body, after the decoding the handler applies to it.
`invalid` stands for a body that the JSON decoder rejects for the endpoint
reading it; `raw` carries the byte stream an upload consumes. -/
inductive Body where
  | invalid
  | events (es : List ArtifactEvent)
  | query (hashes : List String)
  | raw (data : ByteStream)
  deriving DecidableEq, Repr

/-- The raw stream of `r.Body` as `Store` consumes it. -/
def Body.toStream : Body → ByteStream
  | Body.raw d => d
  | _ => ⟨[], false⟩

/-- An inbound HTTP request, restricted to the fields the code reads.
Absent headers are the empty string, as returned by `Header.Get`. -/
structure Request where
  method : String
  path : String
  authHeader : String
  contentLengthHeader : String
  body : Body
  deriving DecidableEq, Repr

/-- One call a handler makes on its `http.ResponseWriter`. -/
inductive WEvent where
  | setHeader (key value : String)
  | writeHeader (code : Nat)
  | write (bs : Bytes)
  deriving DecidableEq, Repr

/-- One log line, reduced to what the claims observe: the request line,
the response line with its status code, or any other diagnostic line. -/
inductive LogEntry where
  | request (method path : String)
  | response (status : Nat)
  | info
  deriving DecidableEq, Repr

/-- What a handler produces: the response-writer trace, the log lines it
emitted, and the filesystem it leaves behind. -/
structure HOut where
  events : List WEvent
  logs : List LogEntry
  fs : FS
  deriving DecidableEq, Repr

/-- `http.Error(w, msg, code)`: an explicit status followed by the message
and a newline as the body. -/
def httpError (msg : String) (code : Nat) : List WEvent :=
  [WEvent.writeHeader code, WEvent.write (strBytes (msg ++ "\n"))]

/-- The status net/http actually sends: the first explicit `WriteHeader`
if one happens before any body write, otherwise the implicit 200 sent by
the first `Write` (or at handler return). -/
def sentStatus : List WEvent → Nat
  | [] => 200
  | WEvent.writeHeader c :: _ => c
  | WEvent.write _ :: _ => 200
  | WEvent.setHeader _ _ :: rest => sentStatus rest

/-- The status the logging wrapper records: `loggingResponseWriter` starts
at 200 and overwrites its field on every `WriteHeader` call. -/
def recordedStatus (evs : List WEvent) : Nat :=
  evs.foldl (fun acc e => match e with | WEvent.writeHeader c => c | _ => acc) 200

/-- The response body: the concatenation of all body writes. -/
def responseBody (evs : List WEvent) : Bytes :=
  (evs.map (fun e => match e with | WEvent.write bs => bs | _ => [])).flatten

/-- The value of a response header (first `Set` for the key). -/
def respHeader : List WEvent → String → Option String
  | [], _ => none
  | WEvent.setHeader k v :: rest, key =>
      if k = key then some v else respHeader rest key
  | _ :: rest, key => respHeader rest key

/-- JSON rendering of one bulk-query entry. -/
def encodeArtifactInfo : ArtifactInfo → String
  | ArtifactInfo.size n => "\x7b\"size\":" ++ toString n ++ "\x7d"
  | ArtifactInfo.err m => "\x7b\"error\":\x7b\"message\":\"" ++ m ++ "\"\x7d\x7d"

/-- JSON rendering of the bulk-query response map, followed by the newline
`json.Encoder.Encode` appends.  (Go serializes map keys sorted; the claims
never inspect these bytes, so entries are rendered in map order.) -/
def encodeQueryResponse (m : List (String × ArtifactInfo)) : String :=
  "\x7b" ++ String.intercalate ","
    (m.map (fun kv => "\"" ++ kv.1 ++ "\":" ++ encodeArtifactInfo kv.2)) ++ "\x7d\n"

/-- JSON body of a successful upload response (`UploadResponse`), with the
trailing newline `Encode` appends. -/
def encodeUploadResponse (hash : String) : String :=
  "\x7b\"urls\":[\"https://api.vercel.com/v2/now/artifact/" ++ hash ++ "\"]\x7d\n"

/-- Go map assignment `m[k] = v` for the bulk-query response map. -/
def mapSet : List (String × ArtifactInfo) → String → ArtifactInfo →
    List (String × ArtifactInfo)
  | [], k, v => [(k, v)]
  | (k', v') :: rest, k, v =>
      if k' = k then (k, v) :: rest else (k', v') :: mapSet rest k v

/-- Lookup in the bulk-query response map. -/
def mapFind : List (String × ArtifactInfo) → String → Option ArtifactInfo
  | [], _ => none
  | (k', v') :: rest, k => if k' = k then some v' else mapFind rest k

/-- The `Server` struct: its storage handle and the configured token.  The
logger is represented by the log-entry lists the handlers return. -/
structure Server where
  storage : FileSystemStorage
  token : String
  deriving DecidableEq, Repr

/-- `Server.downloadArtifact`: any `Get` failure is logged and answered
with 404 `Artifact not found`; on success the exact size and an
octet-stream content type are set and the payload is streamed. -/
def Server.downloadArtifact (s : Server) (o : IOOracle) (fs : FS)
    (hash : String) : HOut :=
  match FileSystemStorage.Get s.storage o fs hash with
  | Except.error _ =>
      { events := httpError "Artifact not found" 404,
        logs := [LogEntry.info], fs := fs }
  | Except.ok (content, size) =>
      { events := [WEvent.setHeader "Content-Length" (toString size),
                   WEvent.setHeader "Content-Type" "application/octet-stream",
                   WEvent.write content],
        logs := [], fs := fs }

/-- `Server.uploadArtifact`: require a `Content-Length` header, then
stream the body into `Store`; a store failure is logged and answered with
500, success with 202 and the urls JSON body. -/
def Server.uploadArtifact (s : Server) (o : IOOracle) (fs : FS)
    (hash : String) (r : Request) : HOut :=
  if r.contentLengthHeader = "" then
    { events := httpError "Content-Length required" 400, logs := [], fs := fs }
  else
    match FileSystemStorage.Store s.storage o fs hash r.body.toStream with
    | (fs', some _) =>
        { events := httpError "Failed to store artifact" 500,
          logs := [LogEntry.info], fs := fs' }
    | (fs', none) =>
        { events := [WEvent.writeHeader 202,
                     WEvent.write (strBytes (encodeUploadResponse hash))],
          logs := [], fs := fs' }

/-- `Server.checkArtifact`: `Exists` errors are logged and answered 500,
a missing artifact 404, an existing one 200 with no body. -/
def Server.checkArtifact (s : Server) (o : IOOracle) (fs : FS)
    (hash : String) : HOut :=
  match FileSystemStorage.Exists s.storage o fs hash with
  | Except.error _ =>
      { events := httpError "Internal server error" 500,
        logs := [LogEntry.info], fs := fs }
  | Except.ok false =>
      { events := httpError "Artifact not found" 404, logs := [], fs := fs }
  | Except.ok true =>
      { events := [WEvent.writeHeader 200], logs := [], fs := fs }

/-- The per-hash outcome the bulk-query loop records: a size on a
successful `Get`, the not-found error object on any failure. -/
def queryEntry (st : FileSystemStorage) (o : IOOracle) (fs : FS)
    (h : String) : ArtifactInfo :=
  match FileSystemStorage.Get st o fs h with
  | Except.error _ => ArtifactInfo.err "Artifact not found"
  | Except.ok (_, size) => ArtifactInfo.size size

/-- The `for _, hash := range req.Hashes` loop of `queryArtifacts`,
accumulating the response map. -/
def queryLoop (st : FileSystemStorage) (o : IOOracle) (fs : FS) :
    List String → List (String × ArtifactInfo) → List (String × ArtifactInfo)
  | [], acc => acc
  | h :: rest, acc => queryLoop st o fs rest (mapSet acc h (queryEntry st o fs h))

/-- `Server.queryArtifacts`: POST only; decode the hash list, run the
lookup loop, and encode the full map as one 200 response. -/
def Server.queryArtifacts (s : Server) (o : IOOracle) (fs : FS)
    (r : Request) : HOut :=
  if r.method = "POST" then
    match r.body with
    | Body.query hashes =>
        { events := [WEvent.write (strBytes
            (encodeQueryResponse (queryLoop s.storage o fs hashes [])))],
          logs := [], fs := fs }
    | _ =>
        { events := httpError "Invalid request body" 400, logs := [], fs := fs }
  else
    { events := httpError "Method not allowed" 405, logs := [], fs := fs }

/-- `Server.recordEvents`: POST only; decode the event list, log one line
per event, respond 200. -/
def Server.recordEvents (s : Server) (o : IOOracle) (fs : FS)
    (r : Request) : HOut :=
  if r.method = "POST" then
    match r.body with
    | Body.events es =>
        { events := [WEvent.writeHeader 200],
          logs := es.map (fun _ => LogEntry.info), fs := fs }
    | _ =>
        { events := httpError "Invalid request body" 400, logs := [], fs := fs }
  else
    { events := httpError "Method not allowed" 405, logs := [], fs := fs }

/-- `Server.getStatus`: GET only; the fixed enabled JSON payload. -/
def Server.getStatus (s : Server) (o : IOOracle) (fs : FS)
    (r : Request) : HOut :=
  if r.method = "GET" then
    { events := [WEvent.write (strBytes "\x7b\"status\":\"enabled\"\x7d\n")],
      logs := [], fs := fs }
  else
    { events := httpError "Method not allowed" 405, logs := [], fs := fs }

/-- `Server.handleArtifact`: strip the route prefix to get the hash and
dispatch on the method. -/
def Server.handleArtifact (s : Server) (o : IOOracle) (fs : FS)
    (r : Request) : HOut :=
  let hash := strTrimLeading r.path "/v8/artifacts/"
  if r.method = "GET" then s.downloadArtifact o fs hash
  else if r.method = "PUT" then s.uploadArtifact o fs hash r
  else if r.method = "HEAD" then s.checkArtifact o fs hash
  else { events := httpError "Method not allowed" 405, logs := [], fs := fs }

/-- `Server.handleAuth`: log the request line; reject a missing or
mismatched bearer token with 401 before the wrapped handler runs;
otherwise run the handler and log the status the logging writer
recorded. -/
def Server.handleAuth (s : Server) (next : FS → Request → HOut) (fs : FS)
    (r : Request) : HOut :=
  let reqLog := LogEntry.request r.method r.path
  if strStartsWith r.authHeader "Bearer " then
    if strTrimLeading r.authHeader "Bearer " = s.token then
      let out := next fs r
      { events := out.events,
        logs := reqLog :: (out.logs ++ [LogEntry.response (recordedStatus out.events)]),
        fs := out.fs }
    else
      { events := httpError "Unauthorized" 401,
        logs := [reqLog, LogEntry.response 401], fs := fs }
  else
    { events := httpError "Unauthorized" 401,
      logs := [reqLog, LogEntry.response 401], fs := fs }

/-- The route table registered in `main`, with `net/http` mux semantics:
the two exact paths win over the `/v8/artifacts/` subtree, `/v8/artifacts`
matches exactly, and everything else is the mux 404 (unlogged,
unauthenticated). -/
def Server.serve (s : Server) (o : IOOracle) (fs : FS) (r : Request) : HOut :=
  if r.path = "/v8/artifacts/events" then
    Server.handleAuth s (fun fs' r' => Server.recordEvents s o fs' r') fs r
  else if r.path = "/v8/artifacts/status" then
    Server.handleAuth s (fun fs' r' => Server.getStatus s o fs' r') fs r
  else if strStartsWith r.path "/v8/artifacts/" then
    Server.handleAuth s (fun fs' r' => Server.handleArtifact s o fs' r') fs r
  else if r.path = "/v8/artifacts" then
    Server.handleAuth s (fun fs' r' => Server.queryArtifacts s o fs' r') fs r
  else
    { events := httpError "404 page not found" 404, logs := [], fs := fs }

/-! ## Generic facts used by several claims -/

theorem sentStatus_httpError (msg : String) (code : Nat) :
    sentStatus (httpError msg code) = code := rfl

theorem recordedStatus_httpError (msg : String) (code : Nat) :
    recordedStatus (httpError msg code) = code := rfl

/-- The bearer check of `handleAuth` passes exactly for the header
`Bearer <token>`. -/
theorem auth_header_split (auth tok : String) :
    (strStartsWith auth "Bearer " = true ∧ strTrimLeading auth "Bearer " = tok)
      ↔ auth = "Bearer " ++ tok := by
  constructor
  · rintro ⟨hpre, htrim⟩
    obtain ⟨rest, rfl⟩ := (strStartsWith_iff auth "Bearer ").1 hpre
    rw [strTrimLeading_append] at htrim
    rw [htrim]
  · rintro rfl
    exact ⟨strStartsWith_append _ _, strTrimLeading_append _ _⟩

/-! ## C2: the authorization gate -/

/-- C2: a request whose `Authorization` header is absent, not of the form
`Bearer <token>`, or whose token differs from the configured secret gets
401 from `handleAuth` and the wrapped handler is never invoked (the output
is the fixed unauthorized response, the same for every wrapped handler);
a request whose token equals the secret is passed to the handler
unmodified, whose output is forwarded. -/
theorem handleAuth_gate (s : Server) (next next' : FS → Request → HOut)
    (fs : FS) (r : Request) :
    (r.authHeader ≠ "Bearer " ++ s.token →
      Server.handleAuth s next fs r =
        { events := httpError "Unauthorized" 401,
          logs := [LogEntry.request r.method r.path, LogEntry.response 401],
          fs := fs } ∧
      Server.handleAuth s next fs r = Server.handleAuth s next' fs r) ∧
    (r.authHeader = "Bearer " ++ s.token →
      Server.handleAuth s next fs r =
        { events := (next fs r).events,
          logs := LogEntry.request r.method r.path ::
            ((next fs r).logs ++
              [LogEntry.response (recordedStatus (next fs r).events)]),
          fs := (next fs r).fs }) := by
  constructor
  · intro hne
    by_cases hpre : strStartsWith r.authHeader "Bearer " = true
    · have htrim : strTrimLeading r.authHeader "Bearer " ≠ s.token := by
        intro htr
        exact hne ((auth_header_split r.authHeader s.token).1 ⟨hpre, htr⟩)
      constructor <;> simp [Server.handleAuth, hpre, htrim]
    · constructor <;> simp [Server.handleAuth, hpre]
  · intro heq
    have hpre : strStartsWith r.authHeader "Bearer " = true := by
      rw [heq]; exact strStartsWith_append "Bearer " s.token
    have htrim : strTrimLeading r.authHeader "Bearer " = s.token := by
      rw [heq]; exact strTrimLeading_append "Bearer " s.token
    simp [Server.handleAuth, hpre, htrim]

/-- Witness for C2, both directions at concrete inputs: a wrong token is
rejected with 401 independently of the handler, the right token forwards
the handler output. -/
theorem handleAuth_gate_witness :
    ("Bearer nope" ≠ "Bearer " ++ "secret" ∧
      Server.handleAuth ⟨⟨"/data"⟩, "secret"⟩
          (fun fs' _ => { events := [WEvent.writeHeader 200], logs := [], fs := fs' })
          []
          { method := "GET", path := "/v8/artifacts/status",
            authHeader := "Bearer nope", contentLengthHeader := "",
            body := Body.invalid } =
        { events := httpError "Unauthorized" 401,
          logs := [LogEntry.request "GET" "/v8/artifacts/status",
                   LogEntry.response 401],
          fs := [] }) ∧
    ("Bearer secret" = "Bearer " ++ "secret" ∧
      Server.handleAuth ⟨⟨"/data"⟩, "secret"⟩
          (fun fs' _ => { events := [WEvent.writeHeader 200], logs := [], fs := fs' })
          []
          { method := "GET", path := "/v8/artifacts/status",
            authHeader := "Bearer secret", contentLengthHeader := "",
            body := Body.invalid } =
        { events := [WEvent.writeHeader 200],
          logs := [LogEntry.request "GET" "/v8/artifacts/status",
                   LogEntry.response 200],
          fs := [] }) :=
  ⟨⟨by decide,
    ((handleAuth_gate ⟨⟨"/data"⟩, "secret"⟩
      (fun fs' _ => { events := [WEvent.writeHeader 200], logs := [], fs := fs' })
      (fun fs' _ => { events := [WEvent.writeHeader 200], logs := [], fs := fs' })
      []
      { method := "GET", path := "/v8/artifacts/status",
        authHeader := "Bearer nope", contentLengthHeader := "",
        body := Body.invalid }).1 (by decide)).1⟩,
   ⟨by decide,
    (handleAuth_gate ⟨⟨"/data"⟩, "secret"⟩
      (fun fs' _ => { events := [WEvent.writeHeader 200], logs := [], fs := fs' })
      (fun fs' _ => { events := [WEvent.writeHeader 200], logs := [], fs := fs' })
      []
      { method := "GET", path := "/v8/artifacts/status",
        authHeader := "Bearer secret", contentLengthHeader := "",
        body := Body.invalid }).2 (by decide)⟩⟩

/-! ## C8: the HEAD existence check -/

/-- C8: `checkArtifact` answers 200 with an empty body when `Exists` is
true, 404 when it is false, and 500 when `Exists` returns an error. -/
theorem checkArtifact_statuses (s : Server) (o : IOOracle) (fs : FS)
    (hash : String) :
    (FileSystemStorage.Exists s.storage o fs hash = Except.ok true →
      sentStatus (Server.checkArtifact s o fs hash).events = 200 ∧
      responseBody (Server.checkArtifact s o fs hash).events = []) ∧
    (FileSystemStorage.Exists s.storage o fs hash = Except.ok false →
      sentStatus (Server.checkArtifact s o fs hash).events = 404) ∧
    (FileSystemStorage.Exists s.storage o fs hash = Except.error () →
      sentStatus (Server.checkArtifact s o fs hash).events = 500) := by
  refine ⟨fun h => ?_, fun h => ?_, fun h => ?_⟩ <;>
    simp [Server.checkArtifact, h, sentStatus, responseBody, httpError]

/-- Witness for C8 at a concrete state: a stored artifact answers 200
with no body, a missing one 404, a failing stat 500. -/
theorem checkArtifact_statuses_witness :
    (FileSystemStorage.Exists ⟨"/data"⟩ IOOracle.ok
        [("/data/abc", FsEntry.file [1, 2])] "abc" = Except.ok true ∧
      sentStatus (Server.checkArtifact ⟨⟨"/data"⟩, "tok"⟩ IOOracle.ok
        [("/data/abc", FsEntry.file [1, 2])] "abc").events = 200 ∧
      responseBody (Server.checkArtifact ⟨⟨"/data"⟩, "tok"⟩ IOOracle.ok
        [("/data/abc", FsEntry.file [1, 2])] "abc").events = []) ∧
    (FileSystemStorage.Exists ⟨"/data"⟩ IOOracle.ok [] "abc" = Except.ok false ∧
      sentStatus (Server.checkArtifact ⟨⟨"/data"⟩, "tok"⟩ IOOracle.ok
        [] "abc").events = 404) :=
  ⟨⟨by decide,
    ((checkArtifact_statuses ⟨⟨"/data"⟩, "tok"⟩ IOOracle.ok
        [("/data/abc", FsEntry.file [1, 2])] "abc").1 (by decide)).1,
    ((checkArtifact_statuses ⟨⟨"/data"⟩, "tok"⟩ IOOracle.ok
        [("/data/abc", FsEntry.file [1, 2])] "abc").1 (by decide)).2⟩,
   ⟨by decide,
    (checkArtifact_statuses ⟨⟨"/data"⟩, "tok"⟩ IOOracle.ok [] "abc").2.1
      (by decide)⟩⟩

/-! ## C3: a failed store leaves no artifact addressable -/

/-- C3: when the copy into the just-created file fails, `Store` reports
the failure and removes the path, so `Exists` answers false and `Get`
answers not-found afterwards: no partial payload is observable. -/
theorem store_failure_leaves_no_artifact (st : FileSystemStorage)
    (o : IOOracle) (fs : FS) (h : String) (d : ByteStream)
    (hcreate : o.createFails = false)
    (hnd : FS.find fs (joinPath st.basePath h) ≠ some FsEntry.dir)
    (hfail : d.fails = true)
    (hopen : o.openFails (joinPath st.basePath h) = false)
    (hstat : o.statFails (joinPath st.basePath h) = false) :
    (FileSystemStorage.Store st o fs h d).2 = some StoreErr.copyFailed ∧
    FileSystemStorage.Exists st o (FileSystemStorage.Store st o fs h d).1 h =
      Except.ok false ∧
    FileSystemStorage.Get st o (FileSystemStorage.Store st o fs h d).1 h =
      Except.error GetErr.notFound := by
  have hstore : FileSystemStorage.Store st o fs h d =
      (FS.erase (FS.set fs (joinPath st.basePath h)
        (FsEntry.file d.bytes)) (joinPath st.basePath h),
       some StoreErr.copyFailed) := by
    rcases hfind : FS.find fs (joinPath st.basePath h) with _ | e
    · simp [FileSystemStorage.Store, hcreate, hfail, hfind]
    · rcases e with c | _
      · simp [FileSystemStorage.Store, hcreate, hfail, hfind]
      · exact absurd hfind hnd
  rw [hstore]
  refine ⟨rfl, ?_, ?_⟩
  · simp [FileSystemStorage.Exists, hstat, FS.find_erase_self]
  · simp [FileSystemStorage.Get, hopen, FS.find_erase_self]

/-- Witness for C3: a store of a failing stream over an empty directory,
and over a previously stored artifact, leaves nothing under the hash. -/
theorem store_failure_leaves_no_artifact_witness :
    ((IOOracle.ok.createFails = false ∧
      FS.find [("/data/old", FsEntry.file [9])] (joinPath "/data" "old") ≠
        some FsEntry.dir ∧
      (ByteStream.mk [1, 2, 3] true).fails = true ∧
      IOOracle.ok.openFails (joinPath "/data" "old") = false ∧
      IOOracle.ok.statFails (joinPath "/data" "old") = false) ∧
     (FileSystemStorage.Store ⟨"/data"⟩ IOOracle.ok
        [("/data/old", FsEntry.file [9])] "old" ⟨[1, 2, 3], true⟩).2 =
          some StoreErr.copyFailed ∧
     FileSystemStorage.Exists ⟨"/data"⟩ IOOracle.ok
        (FileSystemStorage.Store ⟨"/data"⟩ IOOracle.ok
          [("/data/old", FsEntry.file [9])] "old" ⟨[1, 2, 3], true⟩).1 "old" =
          Except.ok false ∧
     FileSystemStorage.Get ⟨"/data"⟩ IOOracle.ok
        (FileSystemStorage.Store ⟨"/data"⟩ IOOracle.ok
          [("/data/old", FsEntry.file [9])] "old" ⟨[1, 2, 3], true⟩).1 "old" =
          Except.error GetErr.notFound) :=
  ⟨⟨by decide, by decide, by decide, by decide, by decide⟩,
   store_failure_leaves_no_artifact ⟨"/data"⟩ IOOracle.ok
     [("/data/old", FsEntry.file [9])] "old" ⟨[1, 2, 3], true⟩
     (by decide) (by decide) (by decide) (by decide) (by decide)⟩

/-! ## Routing facts -/

theorem artifact_path_ne_events (h : String) (hne : h ≠ "events") :
    ("/v8/artifacts/" ++ h : String) ≠ "/v8/artifacts/events" := by
  intro hc
  have heq : ("/v8/artifacts/events" : String) = "/v8/artifacts/" ++ "events" := by
    decide
  rw [heq] at hc
  exact hne ((String.append_left_cancel_iff _ _ _).1 hc)

theorem artifact_path_ne_status (h : String) (hns : h ≠ "status") :
    ("/v8/artifacts/" ++ h : String) ≠ "/v8/artifacts/status" := by
  intro hc
  have heq : ("/v8/artifacts/status" : String) = "/v8/artifacts/" ++ "status" := by
    decide
  rw [heq] at hc
  exact hns ((String.append_left_cancel_iff _ _ _).1 hc)

/-- A request whose path is the artifact route for a hash other than the
two exact routes is dispatched to `handleArtifact` behind the gate. -/
theorem serve_artifact_route (s : Server) (o : IOOracle) (fs : FS)
    (r : Request) (h : String) (hpath : r.path = "/v8/artifacts/" ++ h)
    (hne : h ≠ "events") (hns : h ≠ "status") :
    Server.serve s o fs r =
      Server.handleAuth s (fun fs' r' => Server.handleArtifact s o fs' r') fs r := by
  simp [Server.serve, hpath, artifact_path_ne_events h hne,
    artifact_path_ne_status h hns, strStartsWith_append]

/-! ## C7: upload without Content-Length -/

/-- C7: an authorized PUT upload without a `Content-Length` header is
answered 400 and leaves the filesystem untouched: `Store` is never
reached and nothing is created under the hash. -/
theorem upload_requires_content_length (s : Server) (o : IOOracle) (fs : FS)
    (h : String) (b : Body) (hne : h ≠ "events") (hns : h ≠ "status") :
    sentStatus (Server.serve s o fs
      { method := "PUT", path := "/v8/artifacts/" ++ h,
        authHeader := "Bearer " ++ s.token, contentLengthHeader := "",
        body := b }).events = 400 ∧
    (Server.serve s o fs
      { method := "PUT", path := "/v8/artifacts/" ++ h,
        authHeader := "Bearer " ++ s.token, contentLengthHeader := "",
        body := b }).fs = fs := by
  rw [serve_artifact_route s o fs _ h rfl hne hns]
  simp [Server.handleAuth, strStartsWith_append, strTrimLeading_append,
    Server.handleArtifact, Server.uploadArtifact, sentStatus, httpError]

/-- Witness for C7: the concrete upload of hash `abc123` with no
Content-Length header against an empty store. -/
theorem upload_requires_content_length_witness :
    ("abc123" : String) ≠ "events" ∧ ("abc123" : String) ≠ "status" ∧
    sentStatus (Server.serve ⟨⟨"/data"⟩, "secret"⟩ IOOracle.ok []
      { method := "PUT", path := "/v8/artifacts/" ++ "abc123",
        authHeader := "Bearer " ++ "secret", contentLengthHeader := "",
        body := Body.raw ⟨[1, 2], false⟩ }).events = 400 ∧
    (Server.serve ⟨⟨"/data"⟩, "secret"⟩ IOOracle.ok []
      { method := "PUT", path := "/v8/artifacts/" ++ "abc123",
        authHeader := "Bearer " ++ "secret", contentLengthHeader := "",
        body := Body.raw ⟨[1, 2], false⟩ }).fs = [] :=
  ⟨by decide, by decide,
   (upload_requires_content_length ⟨⟨"/data"⟩, "secret"⟩ IOOracle.ok []
     "abc123" (Body.raw ⟨[1, 2], false⟩) (by decide) (by decide)).1,
   (upload_requires_content_length ⟨⟨"/data"⟩, "secret"⟩ IOOracle.ok []
     "abc123" (Body.raw ⟨[1, 2], false⟩) (by decide) (by decide)).2⟩

/-! ## C5: the download handler's error mapping -/

/-- An oracle on which opening `/data/abc` fails with a non-not-found
error (e.g. a permission error), everything else healthy. -/
def openFailOracle : IOOracle :=
  { createFails := false,
    openFails := fun p => p == "/data/abc",
    statFails := fun _ => false }

/-- Counterexample to C5: with the artifact present on disk but its open
failing with a non-not-found I/O error, `Get` reports `openFailed`, yet
`downloadArtifact` answers 404, not a server error. -/
theorem download_io_error_counterexample :
    FileSystemStorage.Get ⟨"/data"⟩ openFailOracle
      [("/data/abc", FsEntry.file [1, 2])] "abc" =
        Except.error GetErr.openFailed ∧
    sentStatus (Server.downloadArtifact ⟨⟨"/data"⟩, "tok"⟩ openFailOracle
      [("/data/abc", FsEntry.file [1, 2])] "abc").events = 404 := by
  exact ⟨by decide, by decide⟩

/-- C5 as amended: `downloadArtifact` does not distinguish failure kinds —
every `Get` failure, not-found or otherwise, is answered 404; a successful
`Get` is streamed with status 200, the exact length and the payload. -/
theorem download_every_error_404 (s : Server) (o : IOOracle) (fs : FS)
    (hash : String) :
    (∀ e : GetErr, FileSystemStorage.Get s.storage o fs hash = Except.error e →
      sentStatus (Server.downloadArtifact s o fs hash).events = 404) ∧
    (∀ (c : Bytes) (n : Nat),
      FileSystemStorage.Get s.storage o fs hash = Except.ok (c, n) →
      sentStatus (Server.downloadArtifact s o fs hash).events = 200 ∧
      responseBody (Server.downloadArtifact s o fs hash).events = c ∧
      respHeader (Server.downloadArtifact s o fs hash).events "Content-Length" =
        some (toString n)) := by
  constructor
  · intro e he
    simp [Server.downloadArtifact, he, sentStatus, httpError]
  · intro c n hok
    refine ⟨?_, ?_, ?_⟩ <;>
      simp [Server.downloadArtifact, hok, sentStatus, responseBody, respHeader]

/-- Witness for the amended C5: the open failure above is answered 404,
and a healthy store streams the stored bytes. -/
theorem download_every_error_404_witness :
    (FileSystemStorage.Get ⟨"/data"⟩ openFailOracle
        [("/data/abc", FsEntry.file [1, 2])] "abc" =
          Except.error GetErr.openFailed ∧
      sentStatus (Server.downloadArtifact ⟨⟨"/data"⟩, "tok"⟩ openFailOracle
        [("/data/abc", FsEntry.file [1, 2])] "abc").events = 404) ∧
    (FileSystemStorage.Get ⟨"/data"⟩ IOOracle.ok
        [("/data/abc", FsEntry.file [1, 2])] "abc" = Except.ok ([1, 2], 2) ∧
      sentStatus (Server.downloadArtifact ⟨⟨"/data"⟩, "tok"⟩ IOOracle.ok
        [("/data/abc", FsEntry.file [1, 2])] "abc").events = 200 ∧
      responseBody (Server.downloadArtifact ⟨⟨"/data"⟩, "tok"⟩ IOOracle.ok
        [("/data/abc", FsEntry.file [1, 2])] "abc").events = [1, 2]) :=
  ⟨⟨by decide,
    (download_every_error_404 ⟨⟨"/data"⟩, "tok"⟩ openFailOracle
      [("/data/abc", FsEntry.file [1, 2])] "abc").1 GetErr.openFailed
      (by decide)⟩,
   ⟨by decide,
    ((download_every_error_404 ⟨⟨"/data"⟩, "tok"⟩ IOOracle.ok
      [("/data/abc", FsEntry.file [1, 2])] "abc").2 [1, 2] 2 (by decide)).1,
    ((download_every_error_404 ⟨⟨"/data"⟩, "tok"⟩ IOOracle.ok
      [("/data/abc", FsEntry.file [1, 2])] "abc").2 [1, 2] 2 (by decide)).2.1⟩⟩

/-! ## C4: persistence of a stored artifact -/

/-- Counterexample to C4: store `abc` successfully, then store `abc` again
with a stream that fails mid-copy; the cleanup of the failed overwrite
removes the previously stored artifact, so `Exists` turns false. -/
theorem stored_artifact_deleted_counterexample :
    (FileSystemStorage.Store ⟨"/data"⟩ IOOracle.ok [("/data", FsEntry.dir)]
      "abc" ⟨[1, 2], false⟩).2 = none ∧
    FileSystemStorage.Exists ⟨"/data"⟩ IOOracle.ok
      (FileSystemStorage.Store ⟨"/data"⟩ IOOracle.ok [("/data", FsEntry.dir)]
        "abc" ⟨[1, 2], false⟩).1 "abc" = Except.ok true ∧
    (FileSystemStorage.Store ⟨"/data"⟩ IOOracle.ok
      (FileSystemStorage.Store ⟨"/data"⟩ IOOracle.ok [("/data", FsEntry.dir)]
        "abc" ⟨[1, 2], false⟩).1 "abc" ⟨[7], true⟩).2 =
      some StoreErr.copyFailed ∧
    FileSystemStorage.Exists ⟨"/data"⟩ IOOracle.ok
      (FileSystemStorage.Store ⟨"/data"⟩ IOOracle.ok
        (FileSystemStorage.Store ⟨"/data"⟩ IOOracle.ok [("/data", FsEntry.dir)]
          "abc" ⟨[1, 2], false⟩).1 "abc" ⟨[7], true⟩).1 "abc" =
      Except.ok false := by
  exact ⟨by decide, by decide, by decide, by decide⟩

/-- C4 as amended: an artifact stored under `h` survives any later `Store`
except a failing `Store` under the same hash `h` (whose cleanup removes
it); `Get` and `Exists` never modify the filesystem (they return no new
state).  In particular a later successful `Store` under `h` overwrites but
keeps the artifact in existence. -/
theorem stored_artifact_persists (st : FileSystemStorage) (o : IOOracle)
    (fs : FS) (h h' : String) (p : Bytes) (d : ByteStream)
    (hok : hashOk h) (hok' : hashOk h')
    (hstored : FS.find fs (joinPath st.basePath h) = some (FsEntry.file p))
    (hsafe : (FileSystemStorage.Store st o fs h' d).2 = none ∨ h' ≠ h) :
    ∃ q : Bytes, FS.find (FileSystemStorage.Store st o fs h' d).1
      (joinPath st.basePath h) = some (FsEntry.file q) := by
  by_cases hc : o.createFails
  · exact ⟨p, by simp [FileSystemStorage.Store, hc, hstored]⟩
  · by_cases hhe : h' = h
    · subst hhe
      by_cases hdf : d.fails
      · exfalso
        rcases hsafe with hnone | hne
        · simp [FileSystemStorage.Store, hc, hstored, hdf] at hnone
        · exact hne rfl
      · exact ⟨d.bytes, by
          simp [FileSystemStorage.Store, hc, hstored, hdf, FS.find_set_self]⟩
    · have hpne : joinPath st.basePath h' ≠ joinPath st.basePath h :=
        joinPath_inj st.basePath h' h hok' hok hhe
      rcases hfind' : FS.find fs (joinPath st.basePath h') with _ | e
      · by_cases hdf : d.fails
        · exact ⟨p, by
            simp [FileSystemStorage.Store, hc, hfind', hdf,
              FS.find_erase_ne _ _ _ hpne, FS.find_set_ne _ _ _ _ hpne, hstored]⟩
        · exact ⟨p, by
            simp [FileSystemStorage.Store, hc, hfind', hdf,
              FS.find_set_ne _ _ _ _ hpne, hstored]⟩
      · rcases e with c | _
        · by_cases hdf : d.fails
          · exact ⟨p, by
              simp [FileSystemStorage.Store, hc, hfind', hdf,
                FS.find_erase_ne _ _ _ hpne, FS.find_set_ne _ _ _ _ hpne, hstored]⟩
          · exact ⟨p, by
              simp [FileSystemStorage.Store, hc, hfind', hdf,
                FS.find_set_ne _ _ _ _ hpne, hstored]⟩
        · exact ⟨p, by simp [FileSystemStorage.Store, hc, hfind', hstored]⟩

/-- Witness for the amended C4: a stored `abc` survives a failed store of
the different hash `zzz` and a successful overwrite of `abc` itself. -/
theorem stored_artifact_persists_witness :
    (hashOk "abc" ∧ hashOk "zzz" ∧
      FS.find [("/data/abc", FsEntry.file [1])] (joinPath "/data" "abc") =
        some (FsEntry.file [1]) ∧
      ("zzz" : String) ≠ "abc") ∧
    (∃ q : Bytes, FS.find (FileSystemStorage.Store ⟨"/data"⟩ IOOracle.ok
        [("/data/abc", FsEntry.file [1])] "zzz" ⟨[5], true⟩).1
        (joinPath "/data" "abc") = some (FsEntry.file q)) ∧
    (∃ q : Bytes, FS.find (FileSystemStorage.Store ⟨"/data"⟩ IOOracle.ok
        [("/data/abc", FsEntry.file [1])] "abc" ⟨[5, 6], false⟩).1
        (joinPath "/data" "abc") = some (FsEntry.file q)) :=
  ⟨⟨by decide, by decide, by decide, by decide⟩,
   stored_artifact_persists ⟨"/data"⟩ IOOracle.ok
     [("/data/abc", FsEntry.file [1])] "abc" "zzz" [1] ⟨[5], true⟩
     (by decide) (by decide) (by decide) (Or.inr (by decide)),
   stored_artifact_persists ⟨"/data"⟩ IOOracle.ok
     [("/data/abc", FsEntry.file [1])] "abc" "abc" [1] ⟨[5, 6], false⟩
     (by decide) (by decide) (by decide) (Or.inl (by decide))⟩

/-! ## C1: the upload/download roundtrip -/

/-- A successful authorized PUT stores the stream verbatim under the
joined path and answers 202. -/
theorem serve_put_stores (s : Server) (o : IOOracle) (fs : FS)
    (h : String) (p : Bytes) (cl : String)
    (hne : h ≠ "events") (hns : h ≠ "status") (hcl : cl ≠ "")
    (hcreate : o.createFails = false)
    (hnd : FS.find fs (joinPath s.storage.basePath h) ≠ some FsEntry.dir) :
    (Server.serve s o fs
      { method := "PUT", path := "/v8/artifacts/" ++ h,
        authHeader := "Bearer " ++ s.token, contentLengthHeader := cl,
        body := Body.raw ⟨p, false⟩ }).fs =
      FS.set fs (joinPath s.storage.basePath h) (FsEntry.file p) ∧
    sentStatus (Server.serve s o fs
      { method := "PUT", path := "/v8/artifacts/" ++ h,
        authHeader := "Bearer " ++ s.token, contentLengthHeader := cl,
        body := Body.raw ⟨p, false⟩ }).events = 202 := by
  rw [serve_artifact_route s o fs _ h rfl hne hns]
  rcases hfind : FS.find fs (joinPath s.storage.basePath h) with _ | e
  · constructor <;>
      simp [Server.handleAuth, strStartsWith_append, strTrimLeading_append,
        Server.handleArtifact, Server.uploadArtifact, hcl, Body.toStream,
        FileSystemStorage.Store, hcreate, hfind, sentStatus]
  · rcases e with c | _
    · constructor <;>
        simp [Server.handleAuth, strStartsWith_append, strTrimLeading_append,
          Server.handleArtifact, Server.uploadArtifact, hcl, Body.toStream,
          FileSystemStorage.Store, hcreate, hfind, sentStatus]
    · exact absurd hfind hnd

/-- An authorized GET of a stored artifact streams exactly the stored
bytes with the exact length and status 200. -/
theorem serve_get_returns (s : Server) (o : IOOracle) (fs : FS)
    (h : String) (c : Bytes) (hne : h ≠ "events") (hns : h ≠ "status")
    (hopen : o.openFails (joinPath s.storage.basePath h) = false)
    (hstat : o.statFails (joinPath s.storage.basePath h) = false)
    (hfind : FS.find fs (joinPath s.storage.basePath h) =
      some (FsEntry.file c)) :
    responseBody (Server.serve s o fs
      { method := "GET", path := "/v8/artifacts/" ++ h,
        authHeader := "Bearer " ++ s.token, contentLengthHeader := "",
        body := Body.raw ⟨[], false⟩ }).events = c ∧
    respHeader (Server.serve s o fs
      { method := "GET", path := "/v8/artifacts/" ++ h,
        authHeader := "Bearer " ++ s.token, contentLengthHeader := "",
        body := Body.raw ⟨[], false⟩ }).events "Content-Length" =
      some (toString c.length) ∧
    sentStatus (Server.serve s o fs
      { method := "GET", path := "/v8/artifacts/" ++ h,
        authHeader := "Bearer " ++ s.token, contentLengthHeader := "",
        body := Body.raw ⟨[], false⟩ }).events = 200 := by
  rw [serve_artifact_route s o fs _ h rfl hne hns]
  refine ⟨?_, ?_, ?_⟩ <;>
    simp [Server.handleAuth, strStartsWith_append, strTrimLeading_append,
      Server.handleArtifact, Server.downloadArtifact,
      FileSystemStorage.Get, hopen, hstat, hfind,
      responseBody, respHeader, sentStatus]

/-- C1: uploading payload `p` under hash `h` with a Content-Length header
and a valid token, then downloading `h`, returns exactly the bytes `p`
with the `Content-Length` response header equal to the length of `p`:
`Store` writes the stream verbatim and `Get` returns the stored file and
its exact size. -/
theorem upload_then_download_roundtrip (s : Server) (o : IOOracle) (fs : FS)
    (h : String) (p : Bytes) (cl : String)
    (hok : hashOk h) (hne : h ≠ "events") (hns : h ≠ "status") (hcl : cl ≠ "")
    (hcreate : o.createFails = false)
    (hnd : FS.find fs (joinPath s.storage.basePath h) ≠ some FsEntry.dir)
    (hopen : o.openFails (joinPath s.storage.basePath h) = false)
    (hstat : o.statFails (joinPath s.storage.basePath h) = false) :
    responseBody (Server.serve s o
      (Server.serve s o fs
        { method := "PUT", path := "/v8/artifacts/" ++ h,
          authHeader := "Bearer " ++ s.token, contentLengthHeader := cl,
          body := Body.raw ⟨p, false⟩ }).fs
      { method := "GET", path := "/v8/artifacts/" ++ h,
        authHeader := "Bearer " ++ s.token, contentLengthHeader := "",
        body := Body.raw ⟨[], false⟩ }).events = p ∧
    respHeader (Server.serve s o
      (Server.serve s o fs
        { method := "PUT", path := "/v8/artifacts/" ++ h,
          authHeader := "Bearer " ++ s.token, contentLengthHeader := cl,
          body := Body.raw ⟨p, false⟩ }).fs
      { method := "GET", path := "/v8/artifacts/" ++ h,
        authHeader := "Bearer " ++ s.token, contentLengthHeader := "",
        body := Body.raw ⟨[], false⟩ }).events "Content-Length" =
      some (toString p.length) ∧
    sentStatus (Server.serve s o
      (Server.serve s o fs
        { method := "PUT", path := "/v8/artifacts/" ++ h,
          authHeader := "Bearer " ++ s.token, contentLengthHeader := cl,
          body := Body.raw ⟨p, false⟩ }).fs
      { method := "GET", path := "/v8/artifacts/" ++ h,
        authHeader := "Bearer " ++ s.token, contentLengthHeader := "",
        body := Body.raw ⟨[], false⟩ }).events = 200 := by
  have hput := (serve_put_stores s o fs h p cl hne hns hcl hcreate hnd).1
  rw [hput]
  exact serve_get_returns s o _ h p hne hns hopen hstat
    (FS.find_set_self fs (joinPath s.storage.basePath h) (FsEntry.file p))

/-- Witness for C1: the spec's concrete scenario, hash `abc123` with a
5-byte payload. -/
theorem upload_then_download_roundtrip_witness :
    (hashOk "abc123" ∧ ("abc123" : String) ≠ "events" ∧
      ("abc123" : String) ≠ "status" ∧ ("5" : String) ≠ "" ∧
      IOOracle.ok.createFails = false ∧
      FS.find [("/data", FsEntry.dir)] (joinPath "/data" "abc123") ≠
        some FsEntry.dir) ∧
    responseBody (Server.serve ⟨⟨"/data"⟩, "secret"⟩ IOOracle.ok
      (Server.serve ⟨⟨"/data"⟩, "secret"⟩ IOOracle.ok [("/data", FsEntry.dir)]
        { method := "PUT", path := "/v8/artifacts/" ++ "abc123",
          authHeader := "Bearer " ++ "secret", contentLengthHeader := "5",
          body := Body.raw ⟨[104, 101, 108, 108, 111], false⟩ }).fs
      { method := "GET", path := "/v8/artifacts/" ++ "abc123",
        authHeader := "Bearer " ++ "secret", contentLengthHeader := "",
        body := Body.raw ⟨[], false⟩ }).events =
      [104, 101, 108, 108, 111] ∧
    respHeader (Server.serve ⟨⟨"/data"⟩, "secret"⟩ IOOracle.ok
      (Server.serve ⟨⟨"/data"⟩, "secret"⟩ IOOracle.ok [("/data", FsEntry.dir)]
        { method := "PUT", path := "/v8/artifacts/" ++ "abc123",
          authHeader := "Bearer " ++ "secret", contentLengthHeader := "5",
          body := Body.raw ⟨[104, 101, 108, 108, 111], false⟩ }).fs
      { method := "GET", path := "/v8/artifacts/" ++ "abc123",
        authHeader := "Bearer " ++ "secret", contentLengthHeader := "",
        body := Body.raw ⟨[], false⟩ }).events "Content-Length" =
      some (toString (5 : Nat)) :=
  ⟨⟨by decide, by decide, by decide, by decide, by decide, by decide⟩,
   (upload_then_download_roundtrip ⟨⟨"/data"⟩, "secret"⟩ IOOracle.ok
     [("/data", FsEntry.dir)] "abc123" [104, 101, 108, 108, 111] "5"
     (by decide) (by decide) (by decide) (by decide) (by decide) (by decide)
     (by decide) (by decide)).1,
   (upload_then_download_roundtrip ⟨⟨"/data"⟩, "secret"⟩ IOOracle.ok
     [("/data", FsEntry.dir)] "abc123" [104, 101, 108, 108, 111] "5"
     (by decide) (by decide) (by decide) (by decide) (by decide) (by decide)
     (by decide) (by decide)).2.1⟩

/-! ## C6: the bulk query -/

theorem mapFind_set_self (m : List (String × ArtifactInfo)) (k : String)
    (v : ArtifactInfo) : mapFind (mapSet m k v) k = some v := by
  induction m with
  | nil => simp [mapSet, mapFind]
  | cons kv rest ih =>
    obtain ⟨k', v'⟩ := kv
    by_cases hk : k' = k <;> simp [mapSet, mapFind, hk, ih]

theorem mapFind_set_ne (m : List (String × ArtifactInfo)) (k q : String)
    (v : ArtifactInfo) (h : k ≠ q) : mapFind (mapSet m k v) q = mapFind m q := by
  induction m with
  | nil => simp [mapSet, mapFind, h]
  | cons kv rest ih =>
    obtain ⟨k', v'⟩ := kv
    by_cases hk : k' = k
    · subst hk
      simp [mapSet, mapFind, h]
    · simp [mapSet, mapFind, hk, ih]

/-- Hashes the loop never touches keep their accumulator entry. -/
theorem queryLoop_find_not_mem (st : FileSystemStorage) (o : IOOracle)
    (fs : FS) (hs : List String) (acc : List (String × ArtifactInfo))
    (h : String) (hnm : h ∉ hs) :
    mapFind (queryLoop st o fs hs acc) h = mapFind acc h := by
  induction hs generalizing acc with
  | nil => simp [queryLoop]
  | cons h0 rest ih =>
    have hne : h0 ≠ h := fun hc => hnm (hc ▸ List.mem_cons_self h0 rest)
    have hnr : h ∉ rest := fun hc => hnm (List.mem_cons_of_mem h0 hc)
    simp [queryLoop, ih _ hnr, mapFind_set_ne _ _ _ _ hne]

/-- Every requested hash ends up in the loop's map with the outcome of its
own `Get`, independent of all other hashes. -/
theorem queryLoop_find_mem (st : FileSystemStorage) (o : IOOracle)
    (fs : FS) (hs : List String) (acc : List (String × ArtifactInfo))
    (h : String) (hmem : h ∈ hs) :
    mapFind (queryLoop st o fs hs acc) h = some (queryEntry st o fs h) := by
  induction hs generalizing acc with
  | nil => cases hmem
  | cons h0 rest ih =>
    by_cases hr : h ∈ rest
    · simp [queryLoop, ih _ hr]
    · have h0h : h0 = h := by
        rcases List.mem_cons.1 hmem with hc | hc
        · exact hc.symm
        · exact absurd hc hr
      subst h0h
      simp [queryLoop, queryLoop_find_not_mem st o fs rest _ h0 hr,
        mapFind_set_self]

/-- C6: an authorized bulk query answers 200 with the encoding of a map
holding one entry per requested hash — the size on a successful `Get`,
the `Artifact not found` error object otherwise — each entry the outcome
of that hash's own lookup alone, so no failure aborts the batch. -/
theorem queryArtifacts_per_hash (s : Server) (o : IOOracle) (fs : FS)
    (hashes : List String) :
    (Server.serve s o fs
      { method := "POST", path := "/v8/artifacts",
        authHeader := "Bearer " ++ s.token, contentLengthHeader := "",
        body := Body.query hashes }).events =
      [WEvent.write (strBytes
        (encodeQueryResponse (queryLoop s.storage o fs hashes [])))] ∧
    sentStatus (Server.serve s o fs
      { method := "POST", path := "/v8/artifacts",
        authHeader := "Bearer " ++ s.token, contentLengthHeader := "",
        body := Body.query hashes }).events = 200 ∧
    ∀ h ∈ hashes, mapFind (queryLoop s.storage o fs hashes []) h =
      some (queryEntry s.storage o fs h) := by
  have h1 : ("/v8/artifacts" : String) ≠ "/v8/artifacts/events" := by decide
  have h2 : ("/v8/artifacts" : String) ≠ "/v8/artifacts/status" := by decide
  have h3 : strStartsWith "/v8/artifacts" "/v8/artifacts/" = false := by decide
  refine ⟨?_, ?_, fun h hmem => queryLoop_find_mem s.storage o fs hashes [] h hmem⟩ <;>
    simp [Server.serve, h1, h2, h3, Server.handleAuth, strStartsWith_append,
      strTrimLeading_append, Server.queryArtifacts, sentStatus]

/-- Witness for C6: one known and one unknown hash give a 200 with a size
entry and an error entry. -/
theorem queryArtifacts_per_hash_witness :
    sentStatus (Server.serve ⟨⟨"/data"⟩, "secret"⟩ IOOracle.ok
      [("/data/abc123", FsEntry.file [1, 2, 3, 4, 5])]
      { method := "POST", path := "/v8/artifacts",
        authHeader := "Bearer " ++ "secret", contentLengthHeader := "",
        body := Body.query ["abc123", "zzz999"] }).events = 200 ∧
    mapFind (queryLoop ⟨"/data"⟩ IOOracle.ok
      [("/data/abc123", FsEntry.file [1, 2, 3, 4, 5])]
      ["abc123", "zzz999"] []) "abc123" = some (ArtifactInfo.size 5) ∧
    mapFind (queryLoop ⟨"/data"⟩ IOOracle.ok
      [("/data/abc123", FsEntry.file [1, 2, 3, 4, 5])]
      ["abc123", "zzz999"] []) "zzz999" =
      some (ArtifactInfo.err "Artifact not found") :=
  ⟨(queryArtifacts_per_hash ⟨⟨"/data"⟩, "secret"⟩ IOOracle.ok
      [("/data/abc123", FsEntry.file [1, 2, 3, 4, 5])]
      ["abc123", "zzz999"]).2.1,
   by
    have := (queryArtifacts_per_hash ⟨⟨"/data"⟩, "secret"⟩ IOOracle.ok
      [("/data/abc123", FsEntry.file [1, 2, 3, 4, 5])]
      ["abc123", "zzz999"]).2.2 "abc123" (by decide)
    rw [this]; decide,
   by
    have := (queryArtifacts_per_hash ⟨⟨"/data"⟩, "secret"⟩ IOOracle.ok
      [("/data/abc123", FsEntry.file [1, 2, 3, 4, 5])]
      ["abc123", "zzz999"]).2.2 "zzz999" (by decide)
    rw [this]; decide⟩

/-! ## C10: the empty identifier probes the storage root -/

/-- C10: after the constructor has created the storage root, the
existence probe for the empty identifier stats the root directory itself
and answers true, so an authorized HEAD of `/v8/artifacts/` (empty hash
after prefix stripping) is answered 200, not 404. -/
theorem head_empty_hash_200 (fs fs1 : FS) (base tok : String)
    (st : FileSystemStorage) (o : IOOracle)
    (hnew : NewFileSystemStorage fs base = some (st, fs1))
    (hstat : o.statFails base = false) :
    FileSystemStorage.Exists st o fs1 "" = Except.ok true ∧
    sentStatus (Server.serve ⟨st, tok⟩ o fs1
      { method := "HEAD", path := "/v8/artifacts/",
        authHeader := "Bearer " ++ tok, contentLengthHeader := "",
        body := Body.raw ⟨[], false⟩ }).events = 200 := by
  have hbase : st = ⟨base⟩ ∧ FS.find fs1 base = some FsEntry.dir := by
    rcases hfind0 : FS.find fs base with _ | e
    · rw [NewFileSystemStorage, hfind0] at hnew
      injection hnew with hnew'
      injection hnew' with hst hfs
      exact ⟨hst.symm, by rw [← hfs]; exact FS.find_set_self fs base FsEntry.dir⟩
    · rcases e with c | _
      · rw [NewFileSystemStorage, hfind0] at hnew
        cases hnew
      · rw [NewFileSystemStorage, hfind0] at hnew
        injection hnew with hnew'
        injection hnew' with hst hfs
        exact ⟨hst.symm, by rw [← hfs]; exact hfind0⟩
  obtain ⟨hst, hfind⟩ := hbase
  subst hst
  have hex : FileSystemStorage.Exists ⟨base⟩ o fs1 "" = Except.ok true := by
    simp [FileSystemStorage.Exists, joinPath, hstat, hfind]
  refine ⟨hex, ?_⟩
  have h1 : ("/v8/artifacts/" : String) ≠ "/v8/artifacts/events" := by decide
  have h2 : ("/v8/artifacts/" : String) ≠ "/v8/artifacts/status" := by decide
  have h3 : strStartsWith "/v8/artifacts/" "/v8/artifacts/" = true := by decide
  have h4 : strTrimLeading "/v8/artifacts/" "/v8/artifacts/" = "" := by decide
  simp [Server.serve, h1, h2, h3, Server.handleAuth, strStartsWith_append,
    strTrimLeading_append, Server.handleArtifact, h4, Server.checkArtifact,
    hex, sentStatus]

/-- Witness for C10: a fresh store at `/data` answers an authorized HEAD
of the bare artifact route with 200. -/
theorem head_empty_hash_200_witness :
    (NewFileSystemStorage [] "/data" =
      some (⟨"/data"⟩, [("/data", FsEntry.dir)]) ∧
     IOOracle.ok.statFails "/data" = false) ∧
    FileSystemStorage.Exists ⟨"/data"⟩ IOOracle.ok
      [("/data", FsEntry.dir)] "" = Except.ok true ∧
    sentStatus (Server.serve ⟨⟨"/data"⟩, "secret"⟩ IOOracle.ok
      [("/data", FsEntry.dir)]
      { method := "HEAD", path := "/v8/artifacts/",
        authHeader := "Bearer " ++ "secret", contentLengthHeader := "",
        body := Body.raw ⟨[], false⟩ }).events = 200 :=
  ⟨⟨by decide, by decide⟩,
   (head_empty_hash_200 [] [("/data", FsEntry.dir)] "/data" "secret"
     ⟨"/data"⟩ IOOracle.ok (by decide) (by decide)).1,
   (head_empty_hash_200 [] [("/data", FsEntry.dir)] "/data" "secret"
     ⟨"/data"⟩ IOOracle.ok (by decide) (by decide)).2⟩

/-! ## C9: one log line per request with the final status -/

/-- The status codes among a list of log entries. -/
def responseStatuses (logs : List LogEntry) : List Nat :=
  logs.filterMap (fun l => match l with
    | LogEntry.response c => some c
    | _ => none)

/-- A handler output on which the logging wrapper works correctly: the
status the wrapper records is the status net/http actually sends (all
handlers call `WriteHeader` at most once and never after a write), and
the handler itself logged no response line. -/
def statusDisciplined (out : HOut) : Prop :=
  recordedStatus out.events = sentStatus out.events ∧
  responseStatuses out.logs = []

theorem recordEvents_disciplined (s : Server) (o : IOOracle) (fs : FS)
    (r : Request) : statusDisciplined (Server.recordEvents s o fs r) := by
  by_cases hm : r.method = "POST"
  · rcases hb : r.body <;>
      simp [Server.recordEvents, hm, hb, statusDisciplined, recordedStatus,
        sentStatus, httpError, responseStatuses, List.filterMap_map]
  · simp [Server.recordEvents, hm, statusDisciplined, recordedStatus,
      sentStatus, httpError, responseStatuses]

theorem getStatus_disciplined (s : Server) (o : IOOracle) (fs : FS)
    (r : Request) : statusDisciplined (Server.getStatus s o fs r) := by
  by_cases hm : r.method = "GET" <;>
    simp [Server.getStatus, hm, statusDisciplined, recordedStatus,
      sentStatus, httpError, responseStatuses]

theorem downloadArtifact_disciplined (s : Server) (o : IOOracle) (fs : FS)
    (hash : String) : statusDisciplined (Server.downloadArtifact s o fs hash) := by
  rcases hget : FileSystemStorage.Get s.storage o fs hash with e | ⟨c, n⟩ <;>
    simp [Server.downloadArtifact, hget, statusDisciplined, recordedStatus,
      sentStatus, httpError, responseStatuses]

theorem uploadArtifact_disciplined (s : Server) (o : IOOracle) (fs : FS)
    (hash : String) (r : Request) :
    statusDisciplined (Server.uploadArtifact s o fs hash r) := by
  by_cases hcl : r.contentLengthHeader = ""
  · simp [Server.uploadArtifact, hcl, statusDisciplined, recordedStatus,
      sentStatus, httpError, responseStatuses]
  · rcases hst : FileSystemStorage.Store s.storage o fs hash r.body.toStream
      with ⟨fs', err⟩
    rcases err with _ | e <;>
      simp [Server.uploadArtifact, hcl, hst, statusDisciplined,
        recordedStatus, sentStatus, httpError, responseStatuses]

theorem checkArtifact_disciplined (s : Server) (o : IOOracle) (fs : FS)
    (hash : String) : statusDisciplined (Server.checkArtifact s o fs hash) := by
  rcases hex : FileSystemStorage.Exists s.storage o fs hash with e | b
  · simp [Server.checkArtifact, hex, statusDisciplined, recordedStatus,
      sentStatus, httpError, responseStatuses]
  · rcases b <;>
      simp [Server.checkArtifact, hex, statusDisciplined, recordedStatus,
        sentStatus, httpError, responseStatuses]

theorem queryArtifacts_disciplined (s : Server) (o : IOOracle) (fs : FS)
    (r : Request) : statusDisciplined (Server.queryArtifacts s o fs r) := by
  by_cases hm : r.method = "POST"
  · rcases hb : r.body <;>
      simp [Server.queryArtifacts, hm, hb, statusDisciplined, recordedStatus,
        sentStatus, httpError, responseStatuses]
  · simp [Server.queryArtifacts, hm, statusDisciplined, recordedStatus,
      sentStatus, httpError, responseStatuses]

theorem handleArtifact_disciplined (s : Server) (o : IOOracle) (fs : FS)
    (r : Request) : statusDisciplined (Server.handleArtifact s o fs r) := by
  unfold Server.handleArtifact
  by_cases hg : r.method = "GET"
  · simpa [hg] using downloadArtifact_disciplined s o fs
      (strTrimLeading r.path "/v8/artifacts/")
  · by_cases hp : r.method = "PUT"
    · simpa [hg, hp] using uploadArtifact_disciplined s o fs
        (strTrimLeading r.path "/v8/artifacts/") r
    · by_cases hh : r.method = "HEAD"
      · simpa [hg, hp, hh] using checkArtifact_disciplined s o fs
          (strTrimLeading r.path "/v8/artifacts/")
      · simp [hg, hp, hh, statusDisciplined, recordedStatus, sentStatus,
          httpError, responseStatuses]

/-- The gate turns any disciplined handler into a request that logs
exactly one response line, carrying the status actually sent. -/
theorem handleAuth_logs_once (s : Server) (next : FS → Request → HOut)
    (fs : FS) (r : Request)
    (hnext : ∀ (fs' : FS) (r' : Request), statusDisciplined (next fs' r')) :
    responseStatuses (Server.handleAuth s next fs r).logs =
      [sentStatus (Server.handleAuth s next fs r).events] := by
  by_cases hpre : strStartsWith r.authHeader "Bearer " = true
  · by_cases htok : strTrimLeading r.authHeader "Bearer " = s.token
    · have hd := hnext fs r
      simp [Server.handleAuth, hpre, htok, responseStatuses,
        List.filterMap_append, sentStatus]
      have h1 := hd.1
      have h2 := hd.2
      simp [responseStatuses] at h2
      simp [h1]
      exact h2
    · simp [Server.handleAuth, hpre, htok, responseStatuses, httpError,
        sentStatus]
  · simp [Server.handleAuth, hpre, responseStatuses, httpError, sentStatus]

/-- C9: every request handled by one of the registered routes —
authorized or rejected, successful or failed — produces exactly one
response log line, and the status it records is the status actually sent,
including when the handler never calls `WriteHeader` (the wrapper's 200
default coincides with the implicit 200 of the first body write). -/
theorem every_request_logs_final_status (s : Server) (o : IOOracle)
    (fs : FS) (r : Request)
    (hroute : r.path = "/v8/artifacts/events" ∨
      r.path = "/v8/artifacts/status" ∨
      strStartsWith r.path "/v8/artifacts/" = true ∨
      r.path = "/v8/artifacts") :
    responseStatuses (Server.serve s o fs r).logs =
      [sentStatus (Server.serve s o fs r).events] := by
  by_cases h1 : r.path = "/v8/artifacts/events"
  · rw [Server.serve, if_pos h1]
    exact handleAuth_logs_once s _ fs r
      (fun fs' r' => recordEvents_disciplined s o fs' r')
  · by_cases h2 : r.path = "/v8/artifacts/status"
    · rw [Server.serve, if_neg h1, if_pos h2]
      exact handleAuth_logs_once s _ fs r
        (fun fs' r' => getStatus_disciplined s o fs' r')
    · by_cases h3 : strStartsWith r.path "/v8/artifacts/" = true
      · rw [Server.serve, if_neg h1, if_neg h2, if_pos h3]
        exact handleAuth_logs_once s _ fs r
          (fun fs' r' => handleArtifact_disciplined s o fs' r')
      · have h4 : r.path = "/v8/artifacts" := by
          rcases hroute with hc | hc | hc | hc
          · exact absurd hc h1
          · exact absurd hc h2
          · exact absurd hc h3
          · exact hc
        rw [Server.serve, if_neg h1, if_neg h2, if_neg h3, if_pos h4]
        exact handleAuth_logs_once s _ fs r
          (fun fs' r' => queryArtifacts_disciplined s o fs' r')

/-- Witness for C9: a successful status request (implicit 200 via a body
write) and a rejected unauthorized artifact request (explicit 401) each
log exactly one response line with the status actually sent. -/
theorem every_request_logs_final_status_witness :
    responseStatuses (Server.serve ⟨⟨"/data"⟩, "secret"⟩ IOOracle.ok []
      { method := "GET", path := "/v8/artifacts/status",
        authHeader := "Bearer " ++ "secret", contentLengthHeader := "",
        body := Body.raw ⟨[], false⟩ }).logs =
      [sentStatus (Server.serve ⟨⟨"/data"⟩, "secret"⟩ IOOracle.ok []
        { method := "GET", path := "/v8/artifacts/status",
          authHeader := "Bearer " ++ "secret", contentLengthHeader := "",
          body := Body.raw ⟨[], false⟩ }).events] ∧
    responseStatuses (Server.serve ⟨⟨"/data"⟩, "secret"⟩ IOOracle.ok []
      { method := "GET", path := "/v8/artifacts/abc",
        authHeader := "", contentLengthHeader := "",
        body := Body.raw ⟨[], false⟩ }).logs =
      [sentStatus (Server.serve ⟨⟨"/data"⟩, "secret"⟩ IOOracle.ok []
        { method := "GET", path := "/v8/artifacts/abc",
          authHeader := "", contentLengthHeader := "",
          body := Body.raw ⟨[], false⟩ }).events] :=
  ⟨every_request_logs_final_status ⟨⟨"/data"⟩, "secret"⟩ IOOracle.ok []
    { method := "GET", path := "/v8/artifacts/status",
      authHeader := "Bearer " ++ "secret", contentLengthHeader := "",
      body := Body.raw ⟨[], false⟩ } (Or.inr (Or.inl rfl)),
   every_request_logs_final_status ⟨⟨"/data"⟩, "secret"⟩ IOOracle.ok []
    { method := "GET", path := "/v8/artifacts/abc",
      authHeader := "", contentLengthHeader := "",
      body := Body.raw ⟨[], false⟩ } (Or.inr (Or.inr (Or.inl (by decide))))⟩
